import Mathlib

/-!
Shallow embedding of statsd-cloudwatch (src/statsd_cloudwatch/main.py, Python 2.7).

Modelling conventions:
* Python floats are modelled as rationals; every numeric literal appearing in
  the claims is exactly representable, so no rounding behaviour is relevant.
* Python exceptions are modelled with the Except monad over an error tag type;
  a function that can raise returns Except PyErr.
* The registry dict is modelled as an association list in insertion order
  (CPython 2.7 iteration order is unspecified, but key membership and the
  per-item push-then-delete loop, the facts the claims are about, do not
  depend on it; in 2.7 dict.items() snapshots the items, so deleting while
  looping over the snapshot is well defined).
* Wall-clock timestamps (datetime.now) are not modelled: no claim inspects a
  timestamp value, only control and data flow.
-/

set_option allowUnsafeReducibility true

attribute [local semireducible] Rat.add Rat.mul Rat.inv Rat.sub

namespace StatsdCW

/-- Tags for the Python exceptions the embedded code can raise. -/
inductive PyErr where
  | valueError
  | attributeError
  | indexError
  deriving DecidableEq, Repr

deriving instance DecidableEq for Except

/-- Python 2 ASCII whitespace, the character class the re module
whitespace class matches for byte strings. -/
def isPyWs (c : Char) : Bool :=
  c = ' ' || c = '\t' || c = '\n' || c = '\x0b' || c = '\x0c' || c = '\r'

/-- Numeric value of a digit string, most significant first. -/
def digitsVal (l : List Char) : ℕ :=
  l.foldl (fun a c => 10 * a + (c.toNat - '0'.toNat)) 0

/-- Split a character list at every occurrence of the separator, keeping
empty segments, as Python str.split does for a one-character separator. -/
def splitChar (sep : Char) : List Char → List (List Char)
  | [] => [[]]
  | c :: r =>
    match splitChar sep r with
    | [] => [[]]
    | h :: t => if c = sep then [] :: h :: t else (c :: h) :: t

/-- Magnitude part of Python float(): digits with at most one dot and at
least one digit overall.  Models float() on unsigned decimal literals; the
exponent, infinity and nan forms never occur in the claims or the protocol
traffic they describe and are not modelled. -/
def pyFloatMag (l : List Char) : Option ℚ :=
  match splitChar '.' l with
  | [a] => if a ≠ [] ∧ a.all Char.isDigit then some (digitsVal a) else none
  | [a, b] =>
    if (a ≠ [] ∨ b ≠ []) ∧ a.all Char.isDigit ∧ b.all Char.isDigit then
      some ((digitsVal a : ℚ) + (digitsVal b : ℚ) / (10 ^ b.length))
    else none
  | _ => none

/-- Python float() on a character list: optional sign then a magnitude. -/
def pyFloatL (l : List Char) : Option ℚ :=
  match l with
  | '+' :: r => pyFloatMag r
  | '-' :: r => (pyFloatMag r).map (fun q => -q)
  | r => pyFloatMag r

/-- Python float() on a string (decimal-literal fragment, see pyFloatMag). -/
def pyFloat (s : String) : Option ℚ :=
  pyFloatL s.toList

/-- Python int() on a character list: optional sign then digits only. -/
def pyIntL (l : List Char) : Option ℤ :=
  match l with
  | '+' :: r => if r ≠ [] ∧ r.all Char.isDigit then some (digitsVal r) else none
  | '-' :: r => if r ≠ [] ∧ r.all Char.isDigit then some (-(digitsVal r : ℤ)) else none
  | r => if r ≠ [] ∧ r.all Char.isDigit then some (digitsVal r) else none

/-- Model of the Python idiom float(value or 1): an empty string falls back
to 1, otherwise the string is parsed and a parse failure raises ValueError. -/
def pyFloatOr1 (s : String) : Except PyErr ℚ :=
  if s.toList = [] then .ok 1
  else
    match pyFloat s with
    | some q => .ok q
    | none => .error .valueError

/-- Model of the Python idiom int(value or 1). -/
def pyIntOr1 (s : String) : Except PyErr ℤ :=
  if s.toList = [] then .ok 1
  else
    match pyIntL s.toList with
    | some n => .ok n
    | none => .error .valueError

/-- Characters kept by the final substitution in Server.clean_key, the
class a-z A-Z 0-9 underscore hyphen dot. -/
def allowedChar (c : Char) : Bool :=
  c.isAlpha || c.isDigit || c = '_' || c = '-' || c = '.'

/-- Model of re.sub applied to a run of whitespace: each maximal whitespace
run is replaced by one underscore.  The flag records whether the previous
character was whitespace. -/
def subWsRuns : Bool → List Char → List Char
  | _, [] => []
  | prevWs, c :: r =>
    if isPyWs c then
      (if prevWs then subWsRuns true r else '_' :: subWsRuns true r)
    else
      c :: subWsRuns false r

/-- Server.clean_key: replace every slash with a hyphen, every space with an
underscore, collapse remaining whitespace runs to one underscore, then
delete every character outside the allowed class. -/
def clean_key (key : String) : String :=
  let s1 := key.toList.map (fun c => if c = '/' then '-' else c)
  let s2 := s1.map (fun c => if c = ' ' then '_' else c)
  String.mk ((subWsRuns false s2).filter allowedChar)

/-- The six dispatchable metric classes of Server.metric_types, plus Meter
which exists in the source but is absent from the dispatch table. -/
inductive MKind where
  | counter
  | gauge
  | meter
  | timer
  | histogram
  | set
  deriving DecidableEq, Repr

/-- Accumulated state of one metric instance, one constructor per class.
Histogram subclasses Timer and shares its behaviour; it keeps its own
constructor so that the isinstance check can be modelled. -/
inductive MState where
  | counter (v : ℚ)
  | gauge (v : ℚ)
  | meter (n : ℤ)
  | timer (samples : List ℚ)
  | histogram (samples : List ℚ)
  | set (elems : List String)
  deriving DecidableEq, Repr

/-- The class of a metric instance. -/
def kindOf : MState → MKind
  | .counter _ => .counter
  | .gauge _ => .gauge
  | .meter _ => .meter
  | .timer _ => .timer
  | .histogram _ => .histogram
  | .set _ => .set

/-- Python isinstance(instance-of-bound, dispatched-class) restricted to the
concrete metric classes: true on the same class, and a Histogram instance is
also an instance of Timer, its base class. -/
def isinstanceK (bound dispatched : MKind) : Bool :=
  bound == dispatched || (bound == .histogram && dispatched == .timer)

/-- Fresh accumulated state, copy.copy of the class default. -/
def initState : MKind → MState
  | .counter => .counter 0
  | .gauge => .gauge 0
  | .meter => .meter 0
  | .timer => .timer []
  | .histogram => .histogram []
  | .set => .set []

/-- Model of re.match on the sampling-modifier pattern: an at sign followed
by a nonempty run of digit or dot characters; returns the captured run. -/
def rateMatch (a : String) : Option (List Char) :=
  match a.toList with
  | '@' :: rest =>
    let ds := rest.takeWhile (fun c => c.isDigit || c = '.')
    if ds = [] then none else some ds
  | _ => none

/-- Counter.update.  With exactly one modifier argument the sampling rate is
extracted by rateMatch; a failed match raises AttributeError (None.group),
an unparseable captured rate raises ValueError, a zero rate returns without
touching the value; otherwise the parsed value (default 1) scaled by the
reciprocal rate is added. -/
def counterUpdate (v : ℚ) (value : String) (args : List String) : Except PyErr ℚ :=
  match args with
  | [a] =>
    match rateMatch a with
    | none => .error .attributeError
    | some ds =>
      match pyFloatL ds with
      | none => .error .valueError
      | some r =>
        if r = 0 then .ok v
        else (pyFloatOr1 value).map (fun x => v + x * (1 / r))
  | _ => (pyFloatOr1 value).map (fun x => v + x)

/-- Gauge.update: a leading plus adds, a leading minus subtracts, otherwise
the parsed value replaces the stored one. -/
def gaugeUpdateL (v : ℚ) (value : List Char) : Except PyErr ℚ :=
  match value with
  | '+' :: rest =>
    match pyFloatL rest with
    | some q => .ok (v + q)
    | none => .error .valueError
  | '-' :: rest =>
    match pyFloatL rest with
    | some q => .ok (v - q)
    | none => .error .valueError
  | l =>
    match pyFloatL l with
    | some q => .ok q
    | none => .error .valueError

/-- Gauge.update on the raw value string. -/
def gaugeUpdate (v : ℚ) (value : String) : Except PyErr ℚ :=
  gaugeUpdateL v value.toList

/-- Meter.update: add int(value or 1). -/
def meterUpdate (n : ℤ) (value : String) : Except PyErr ℤ :=
  (pyIntOr1 value).map (fun x => n + x)

/-- Timer.update (shared by Histogram): append float(value); no default. -/
def timerUpdate (samples : List ℚ) (value : String) : Except PyErr (List ℚ) :=
  match pyFloat value with
  | some q => .ok (samples ++ [q])
  | none => .error .valueError

/-- Set.update: insert the raw value string into the set. -/
def setUpdate (elems : List String) (value : String) : List String :=
  if elems.contains value then elems else elems ++ [value]

/-- Dispatch one update to the state of the bound class.  Classes other than
Counter ignore the modifier arguments, as in the source. -/
def updateState (st : MState) (value : String) (args : List String) : Except PyErr MState :=
  match st with
  | .counter v => (counterUpdate v value args).map .counter
  | .gauge v => (gaugeUpdate v value).map .gauge
  | .meter n => (meterUpdate n value).map .meter
  | .timer s => (timerUpdate s value).map .timer
  | .histogram s => (timerUpdate s value).map .histogram
  | .set l => .ok (.set (setUpdate l value))

/-- One live metric instance: the namespace part (dots already replaced by
slashes, as Metric.__init__ stores it), the metric name, and the
accumulated state. -/
structure MetricBox where
  nspace : String
  mname : String
  state : MState
  deriving DecidableEq, Repr

/-- rsplit at the last dot: the part before it and the part after it.
None when the string has no dot, in which case Metric.__init__ raises
ValueError unpacking the one-element list. -/
def rsplitDot (s : String) : Option (String × String) :=
  match s.toList.reverse.span (fun c => c ≠ '.') with
  | (_, []) => none
  | (revName, _ :: revNs) => some (String.mk revNs.reverse, String.mk revName.reverse)

/-- Metric.__init__ for a dispatched class: split the key at its last dot
into namespace and name (ValueError when there is no dot), replace dots by
slashes in the namespace part, and take a fresh copy of the class default
state. -/
def mkBox (key : String) (k : MKind) : Except PyErr MetricBox :=
  match rsplitDot key with
  | none => .error .valueError
  | some (ns, nm) =>
    .ok ⟨String.mk (ns.toList.map (fun c => if c = '.' then '/' else c)), nm, initState k⟩

/-- The registry dict, as an insertion-ordered association list. -/
abbrev Registry := List (String × MetricBox)

/-- Dict lookup. -/
def lookupReg (reg : Registry) (key : String) : Option MetricBox :=
  (reg.find? (fun p => p.1 = key)).map (fun p => p.2)

/-- Dict write to an existing key, keeping its position. -/
def setReg (reg : Registry) (key : String) (box : MetricBox) : Registry :=
  reg.map (fun p => if p.1 = key then (key, box) else p)

/-- Server.metric_types, the fixed dispatch table from type code to class.
Meter is not reachable from any code. -/
def metric_types (t : String) : Option MKind :=
  if t = "c" then some .counter
  else if t = "g" then some .gauge
  else if t = "h" then some .timer
  else if t = "m" then some .histogram
  else if t = "ms" then some .timer
  else if t = "s" then some .set
  else none

/-- Split a character list at the first occurrence of a character:
the part before it and the part after it, none when absent. -/
def breakOnChar (c : Char) : List Char → Option (List Char × List Char)
  | [] => none
  | x :: r =>
    if x = c then some ([], r)
    else (breakOnChar c r).map (fun p => (x :: p.1, p.2))

/-- The line regex of Server.process: a nonempty colon-free bucket, a colon,
a nonempty pipe-free value, a pipe, and a nonempty remainder.  Returns
(bucket, value, remainder) on a match. -/
def parseLineL (cs : List Char) : Option (String × String × String) :=
  match breakOnChar ':' cs with
  | none => none
  | some (bucket, rest1) =>
    if bucket = [] then none
    else
      match breakOnChar '|' rest1 with
      | none => none
      | some (value, rest2) =>
        if value = [] then none
        else if rest2 = [] then none
        else some (String.mk bucket, String.mk value, String.mk rest2)

/-- Line match on a string. -/
def parseLine (line : String) : Option (String × String × String) :=
  parseLineL line.toList

/-- Python str.split with a one-character separator. -/
def pySplit (sep : Char) (s : String) : List String :=
  (splitChar sep s.toList).map String.mk

/-- The body of Server.process for one line once the regex has matched and
the remainder has been split into type code and modifier arguments: dispatch
the code (unknown codes are skipped), create the instance on first use of
the key (this can raise, leaving the registry unchanged), skip the update
when the bound instance is not an instance of the dispatched class, else
run the update (a raising update leaves the bound state unchanged but keeps
a freshly created instance in the registry). -/
def handleLine (reg : Registry) (key value mtype : String) (args : List String) :
    Registry × Option PyErr :=
  match metric_types mtype with
  | none => (reg, none)
  | some k =>
    match lookupReg reg key with
    | none =>
      match mkBox key k with
      | .error e => (reg, some e)
      | .ok box =>
        match updateState box.state value args with
        | .error e => (reg ++ [(key, box)], some e)
        | .ok st => (reg ++ [(key, { box with state := st })], none)
    | some box =>
      if isinstanceK (kindOf box.state) k then
        match updateState box.state value args with
        | .error e => (reg, some e)
        | .ok st => (setReg reg key { box with state := st }, none)
      else (reg, none)

/-- Server.process on one line: a non-matching line is skipped, a matching
one is sanitized and dispatched.  The error component is the exception the
line raised, if any. -/
def processLine (reg : Registry) (line : String) : Registry × Option PyErr :=
  match parseLine line with
  | none => (reg, none)
  | some (bucket, value, g3) =>
    match pySplit '|' g3 with
    | [] => (reg, none)
    | mtype :: args => handleLine reg (clean_key bucket) value mtype args

/-- Server.process over the lines of a payload: lines are processed in
order until one raises; the exception aborts the remaining lines. -/
def processLines (reg : Registry) : List String → Registry × Option PyErr
  | [] => (reg, none)
  | line :: rest =>
    match processLine reg line with
    | (reg1, none) => processLines reg1 rest
    | (reg1, some e) => (reg1, some e)

/-- Server.process on a datagram payload: split on newline and process. -/
def processData (reg : Registry) (data : String) : Registry × Option PyErr :=
  processLines reg (pySplit '\n' data)

/-- The datagram branch of Server.serve: process the payload, catching any
exception (it is logged and the loop continues with the registry as the
aborted process left it). -/
def serveProcessDatagram (reg : Registry) (data : String) : Registry :=
  (processData reg data).1

/-- The statistics block Timer.statistics computes: head, last and sum of
the sorted sample list, and the sample count.  IndexError on an empty
list. -/
structure Stats where
  minimum : ℚ
  maximum : ℚ
  statSum : ℚ
  samplecount : ℕ
  deriving DecidableEq, Repr

/-- Insert into a sorted list of rationals. -/
def insertSorted (x : ℚ) : List ℚ → List ℚ
  | [] => [x]
  | y :: r => if x ≤ y then x :: y :: r else y :: insertSorted x r

/-- Python sorted() on a list of rationals (values compare by the total
order of the rationals, so any correct sort yields the same list). -/
def pySorted (l : List ℚ) : List ℚ :=
  l.foldr insertSorted []

/-- Timer.statistics. -/
def timerStats (samples : List ℚ) : Except PyErr Stats :=
  match pySorted samples with
  | [] => .error .indexError
  | x :: xs => .ok ⟨x, (x :: xs).getLast (List.cons_ne_nil x xs), (x :: xs).sum, (x :: xs).length⟩

/-- The record put_metric_data is called with: full namespace, name, unit,
and either a scalar value or a statistics block (the wall-clock timestamp
field is not modelled). -/
structure PublishRecord where
  pnamespace : String
  pname : String
  unit : String
  value : Option ℚ
  statistics : Option Stats
  deriving DecidableEq, Repr

/-- The unit class attribute of each metric class. -/
def unitOf : MKind → String
  | .counter => "Count"
  | .timer => "Milliseconds"
  | .histogram => "Milliseconds"
  | _ => "None"

/-- Metric.push for one instance: evaluate the statistics property (which
raises IndexError for a sample-less Timer or Histogram), then skip the
publish when both the statistics and the scalar value are falsy, else
publish.  Returns ok none for a skipped instance and ok (some record) for a
published one.  The configured root namespace is the default Statsd. -/
def pushBox (b : MetricBox) : Except PyErr (Option PublishRecord) :=
  let full := "Statsd/" ++ b.nspace
  match b.state with
  | .timer s =>
    match timerStats s with
    | .error e => .error e
    | .ok st => .ok (some ⟨full, b.mname, unitOf .timer, none, some st⟩)
  | .histogram s =>
    match timerStats s with
    | .error e => .error e
    | .ok st => .ok (some ⟨full, b.mname, unitOf .histogram, none, some st⟩)
  | .counter v =>
    if v = 0 then .ok none
    else .ok (some ⟨full, b.mname, unitOf .counter, some v, none⟩)
  | .gauge v =>
    if v = 0 then .ok none
    else .ok (some ⟨full, b.mname, unitOf .gauge, some v, none⟩)
  | .meter n =>
    if n = 0 then .ok none
    else .ok (some ⟨full, b.mname, unitOf .meter, some (n : ℚ), none⟩)
  | .set l =>
    if l.length = 0 then .ok none
    else .ok (some ⟨full, b.mname, unitOf .set, some (l.length : ℚ), none⟩)

/-- Whether Metric.push returns without raising. -/
def pushOk (b : MetricBox) : Bool :=
  match pushBox b with
  | .ok _ => true
  | .error _ => false

/-- Server.push: walk the registry items in order; push each instance and
delete its key right after a push that returned; the first push that raises
propagates, leaving the raising key and every later key still in the
registry.  Also returns the records actually sent and the exception, if
any. -/
def serverPush : Registry → Registry × List PublishRecord × Option PyErr
  | [] => ([], [], none)
  | (key, box) :: rest =>
    match pushBox box with
    | .error e => ((key, box) :: rest, [], some e)
    | .ok none => serverPush rest
    | .ok (some r) =>
      ((serverPush rest).1, r :: (serverPush rest).2.1, (serverPush rest).2.2)

/-- The flush branch of Server.serve: push, catching any exception (logged,
loop continues with whatever Server.push left in the registry). -/
def serveFlush (reg : Registry) : Registry × List PublishRecord :=
  match serverPush reg with
  | (reg1, recs, _) => (reg1, recs)

/-! Definitions written from the words of the specification, used to compare
the spec against the embedded source. -/

/-- Right fold collapsing whitespace runs: the flag records whether the
list starts with a whitespace character. -/
def wsFoldAux (l : List Char) : Bool × List Char :=
  l.foldr
    (fun c p =>
      if isPyWs c then (true, if p.1 then p.2 else '_' :: p.2)
      else (false, c :: p.2))
    (false, ([] : List Char))

/-- Collapse every maximal run of whitespace characters into one
underscore, by a right fold whose flag records whether the character to the
right began a whitespace run. -/
def collapseWsFold (l : List Char) : List Char :=
  (wsFoldAux l).2

/-- The sanitizer exactly as the claim states it: replace every slash and
every run of whitespace with an underscore, then delete every character
outside the allowed class. -/
def specSanitizeClaim (key : String) : String :=
  String.mk
    ((collapseWsFold (key.toList.map (fun c => if c = '/' then '_' else c))).filter
      allowedChar)

/-- The sanitizer as amended to match the source: replace every slash with a
hyphen and every space with an underscore, then every remaining maximal
whitespace run with one underscore, then delete every character outside the
allowed class. -/
def specSanitizeAmended (key : String) : String :=
  String.mk
    ((collapseWsFold
        (key.toList.map (fun c =>
          if c = '/' then '-' else if c = ' ' then '_' else c))).filter
      allowedChar)

/-- The sampling rate captured by the modifier of a Counter update, when
the modifier matches and its captured text parses. -/
def rateOf (a : String) : Option ℚ :=
  match rateMatch a with
  | none => none
  | some ds => pyFloatL ds

/-- The effective sampling rate of a Counter update: the captured rate with
exactly one modifier argument, and 1 otherwise. -/
def updRate (args : List String) : ℚ :=
  match args with
  | [a] => (rateOf a).getD 1
  | _ => 1

/-- parse(value, default 1), the value a Counter update contributes before
scaling. -/
def parseOr1 (s : String) : ℚ :=
  if s.toList = [] then 1 else (pyFloat s).getD 1

/-- The contribution of one accepted Counter update to the accumulated
value: zero for a zero sampling rate, else the parsed value scaled by the
reciprocal rate. -/
def counterContrib (u : String × List String) : ℚ :=
  if updRate u.2 = 0 then 0 else parseOr1 u.1 * (1 / updRate u.2)

/-- A valid Counter update in the sense of the wire format: the value text
is empty or parses, and there is no modifier or exactly one whose rate
parses. -/
def ValidCounterUpd (u : String × List String) : Prop :=
  (u.1.toList = [] ∨ (pyFloat u.1).isSome = true) ∧
  (u.2 = [] ∨ ∃ a r, u.2 = [a] ∧ rateOf a = some r)

/-- Run a sequence of Counter updates from an accumulated value, stopping
at the first raising update, as repeated Counter.update calls would. -/
def counterFold (v : ℚ) : List (String × List String) → Except PyErr ℚ
  | [] => .ok v
  | u :: rest =>
    match counterUpdate v u.1 u.2 with
    | .error e => .error e
    | .ok w => counterFold w rest

/-- The skip predicate of Metric.push as the source implements it: the
scalar value is falsy, for the classes whose statistics property is None. -/
def scalarZero : MState → Bool
  | .counter v => decide (v = 0)
  | .gauge v => decide (v = 0)
  | .meter n => decide (n = 0)
  | .set l => l.isEmpty
  | .timer _ => false
  | .histogram _ => false

/-- Whether a Timer or Histogram instance holds no samples, the state on
which its statistics property raises IndexError. -/
def noSamples : MState → Bool
  | .timer s => s.isEmpty
  | .histogram s => s.isEmpty
  | _ => false

/-! Helper lemmas. -/

theorem wsFoldAux_cons (c : Char) (r : List Char) :
    wsFoldAux (c :: r) =
      if isPyWs c then
        (true, if (wsFoldAux r).1 then (wsFoldAux r).2 else '_' :: (wsFoldAux r).2)
      else (false, c :: (wsFoldAux r).2) := rfl

theorem subWsRuns_eq_fold (l : List Char) :
    subWsRuns false l = (wsFoldAux l).2 ∧
    subWsRuns true l = (if (wsFoldAux l).1 then (wsFoldAux l).2.tail else (wsFoldAux l).2) ∧
    ((wsFoldAux l).1 = true → ∃ t, (wsFoldAux l).2 = '_' :: t) := by
  induction l with
  | nil => simp [subWsRuns, wsFoldAux]
  | cons c r ih =>
    obtain ⟨ih1, ih2, ih3⟩ := ih
    cases hws : isPyWs c
    · refine ⟨?_, ?_, ?_⟩
      · simp [wsFoldAux_cons, subWsRuns, hws, ih1]
      · simp [wsFoldAux_cons, subWsRuns, hws, ih1]
      · simp [wsFoldAux_cons, hws]
    · cases hf : (wsFoldAux r).1
      · refine ⟨?_, ?_, ?_⟩
        · simp [wsFoldAux_cons, subWsRuns, hws, hf, ih2]
        · simp [wsFoldAux_cons, subWsRuns, hws, hf, ih2]
        · simp [wsFoldAux_cons, hws, hf]
      · obtain ⟨t, ht⟩ := ih3 hf
        refine ⟨?_, ?_, ?_⟩
        · simp [wsFoldAux_cons, subWsRuns, hws, hf, ih2, ht]
        · simp [wsFoldAux_cons, subWsRuns, hws, hf, ih2, ht]
        · simp [wsFoldAux_cons, hws, hf, ht]

theorem serverPush_fst (reg : Registry) :
    (serverPush reg).1 = reg.dropWhile (fun p => pushOk p.2) := by
  induction reg with
  | nil => simp [serverPush]
  | cons kb rest ih =>
    obtain ⟨k, b⟩ := kb
    cases hpb : pushBox b with
    | error e => simp [serverPush, hpb, List.dropWhile_cons, pushOk]
    | ok o =>
      cases o with
      | none => simp [serverPush, hpb, List.dropWhile_cons, pushOk, ih]
      | some r => simp [serverPush, hpb, List.dropWhile_cons, pushOk, ih]

/-! Claim C1. -/

/-- C1 counterexample: a registry holding an updateless Timer (reachable:
its creating line had an unparseable value) and a Counter.  The flush
publishes and deletes the Counter, then raises IndexError on the Timer; the
key a.b is present before the flush and still present after it, so the
generation is not entirely discarded when a publish attempt raises. -/
theorem C1_counterexample :
    processData (processData [] "c.d:3|c").1 "a.b:abc|ms" =
      ([("c.d", ⟨"c", "d", .counter 3⟩), ("a.b", ⟨"a", "b", .timer []⟩)],
        some .valueError) ∧
    serverPush [("c.d", ⟨"c", "d", .counter 3⟩), ("a.b", ⟨"a", "b", .timer []⟩)] =
      ([("a.b", ⟨"a", "b", .timer []⟩)],
        [⟨"Statsd/c", "d", "Count", some 3, none⟩], some .indexError) :=
  ⟨by decide, by decide⟩

/-- C1 (amended): at every flush the keys are deleted one by one, right
after each publish attempt that returns; the registry left behind is
exactly the suffix starting at the first publish attempt that raises — so
the whole generation is discarded when, and only generally when, every
publish attempt returns, while on an exception the raising key and all keys
after it survive into the next generation and the next flush. -/
theorem C1_flush_discard (reg : Registry) :
    (serverPush reg).1 = reg.dropWhile (fun p => pushOk p.2) ∧
    ((∀ p ∈ reg, pushOk p.2 = true) → (serverPush reg).1 = []) := by
  refine ⟨serverPush_fst reg, fun hall => ?_⟩
  rw [serverPush_fst reg, List.dropWhile_eq_nil_iff]
  exact fun x hx => hall x hx

/-- C1 witness: a registry whose single Counter publishes successfully is
entirely discarded by the flush. -/
theorem C1_witness :
    (serverPush [("a.b", ⟨"a", "b", MState.counter 5⟩)]).1 = [] :=
  (C1_flush_discard _).2 (by decide)

/-! Claim C2. -/

/-- C2 counterexample: a key bound to Histogram by a type code m line then
receives a type code ms line whose dispatched kind is Timer — a different
kind — yet the update is accepted and mutates the state (the sample 2 is
appended), because a Histogram instance passes the isinstance check against
its Timer base class.  Moreover the example lines of the claim, foo:1|c and
foo:1|g raise ValueError at variant creation (the key foo has no dot), so
no Counter is created at all. -/
theorem C2_counterexample :
    processData [] "a.b:1|m\na.b:2|ms" =
      ([("a.b", ⟨"a", "b", .histogram [1, 2]⟩)], none) ∧
    metric_types "m" = some .histogram ∧
    metric_types "ms" = some .timer ∧
    MKind.timer ≠ MKind.histogram ∧
    processData [] "foo:1|c\nfoo:1|g" = ([], some .valueError) :=
  ⟨by decide, by decide, by decide, by decide, by decide⟩

/-- C2 (amended): an update on an existing key is rejected without mutating
the state of the variant whenever the bound instance is not an instance of the
dispatched class — which holds exactly when the classes differ, except that
a Histogram-bound key (code m) accepts Timer-dispatched updates (codes ms
and h) since Histogram subclasses Timer.  With a dotted bucket the
example behaves as stated: after foo.x:1|c then foo.x:1|g the second update
is rejected and the variant remains a Counter with value 1, unchanged by
the rejected update (single-segment buckets such as foo instead raise
ValueError at variant creation). -/
theorem C2_type_binding :
    (∀ (reg : Registry) (key value mtype : String) (args : List String)
        (box : MetricBox) (k : MKind),
        metric_types mtype = some k →
        lookupReg reg key = some box →
        isinstanceK (kindOf box.state) k = false →
        handleLine reg key value mtype args = (reg, none)) ∧
    processData [] "foo.x:1|c\nfoo.x:1|g" =
      ([("foo.x", ⟨"foo", "x", .counter 1⟩)], none) := by
  refine ⟨?_, by decide⟩
  intro reg key value mtype args box k hmt hlook hinst
  simp [handleLine, hmt, hlook, hinst]

/-- C2 witness: a key bound to a Counter rejects a Gauge-dispatched update,
leaving the registry unchanged. -/
theorem C2_witness :
    handleLine [("k.x", ⟨"k", "x", .counter 5⟩)] "k.x" "1" "g" [] =
      ([("k.x", ⟨"k", "x", .counter 5⟩)], none) :=
  C2_type_binding.1 _ "k.x" "1" "g" [] ⟨"k", "x", .counter 5⟩ .gauge
    (by decide) (by decide) (by decide)

/-! Claim C3. -/

/-- C3 counterexample: a Timer line with the unparseable value abc leaves
the state of the variant unchanged (the fresh Timer keeps zero samples), but the
ValueError aborts the rest of the payload: the following line c.d:1|c is
never processed and no Counter for c.d exists, refuting the claim that
processing continues with the remaining lines of the payload. -/
theorem C3_counterexample :
    processData [] "a.b:abc|ms\nc.d:1|c" =
      ([("a.b", ⟨"a", "b", .timer []⟩)], some .valueError) ∧
    lookupReg (processData [] "a.b:abc|ms\nc.d:1|c").1 "c.d" = none :=
  ⟨by decide, by decide⟩

/-- C3 (amended): an update whose numeric value text fails to parse fails
with ValueError and the accumulated state of the variant unchanged, but the
exception escapes the payload processor: the remaining lines of the same
datagram are not processed (it is caught at the ingest loop, which logs and
continues with the datagram dropped). -/
theorem C3_parse_failure_aborts
    (reg : Registry) (line : String) (rest : List String)
    (bucket value g3 : String) (box : MetricBox) (s : List ℚ)
    (hparse : parseLine line = some (bucket, value, g3))
    (hsplit : pySplit '|' g3 = ["ms"])
    (hpf : pyFloat value = none)
    (hlook : lookupReg reg (clean_key bucket) = some box)
    (hstate : box.state = .timer s) :
    processLines reg (line :: rest) = (reg, some .valueError) := by
  have hmt : metric_types "ms" = some .timer := rfl
  simp [processLines, processLine, hparse, hsplit, handleLine, hmt, hlook,
    hstate, kindOf, isinstanceK, updateState, timerUpdate, hpf, Except.map]

/-- C3 witness: a Timer bound at a.b with one accumulated sample receives
the unparseable value abc; the payload aborts with ValueError, the sample
list [1] is unchanged, and the following line is not processed. -/
theorem C3_witness :
    processLines [("a.b", ⟨"a", "b", .timer [1]⟩)] ["a.b:abc|ms", "c.d:1|c"] =
      ([("a.b", ⟨"a", "b", .timer [1]⟩)], some .valueError) :=
  C3_parse_failure_aborts _ "a.b:abc|ms" ["c.d:1|c"] "a.b" "abc" "ms"
    ⟨"a", "b", .timer [1]⟩ [1] (by decide) (by decide) (by decide) (by decide) rfl

/-! Claim C4. -/

/-- C4 counterexample: the sanitizer does not equal the transformation the
claim states.  On the input a/b the code yields a-b (slash becomes hyphen,
not underscore), and on a double space the code yields two underscores
where the claimed run collapse yields one. -/
theorem C4_counterexample :
    clean_key "a/b" ≠ specSanitizeClaim "a/b" ∧
    clean_key "a/b" = "a-b" ∧ specSanitizeClaim "a/b" = "a_b" ∧
    clean_key "a  b" ≠ specSanitizeClaim "a  b" ∧
    clean_key "a  b" = "a__b" ∧ specSanitizeClaim "a  b" = "a_b" := by
  refine ⟨by decide, by decide, by decide, by decide, by decide, by decide⟩

/-- C4 (amended): for every raw bucket string the sanitized key equals the
result of replacing every slash with a hyphen and every space with an
underscore, then every remaining maximal whitespace run with one
underscore, then deleting every character outside the allowed class; the
sanitizer is a deterministic pure function of its input. -/
theorem C4_sanitizer_amended (key : String) :
    clean_key key = specSanitizeAmended key := by
  simp only [clean_key, specSanitizeAmended, collapseWsFold]
  rw [List.map_map]
  have hfg : ((fun c => if c = ' ' then '_' else c) ∘ fun c => if c = '/' then '-' else c)
      = fun c : Char => if c = '/' then '-' else if c = ' ' then '_' else c := by
    funext c
    by_cases h1 : c = '/'
    · simp [h1]
    · by_cases h2 : c = ' ' <;> simp [h1, h2]
  rw [hfg, (subWsRuns_eq_fold _).1]

theorem pyFloatL_nil : pyFloatL [] = none := rfl

theorem pyFloatOr1_eq (s : String)
    (h : s.toList = [] ∨ (pyFloat s).isSome = true) :
    pyFloatOr1 s = .ok (parseOr1 s) := by
  rcases h with he | hs
  · have he2 : s.data = [] := he
    simp [pyFloatOr1, parseOr1, he2]
  · obtain ⟨q, hq⟩ := Option.isSome_iff_exists.mp hs
    have hne : ¬ s.toList = [] := by
      intro hnil
      rw [pyFloat, hnil, pyFloatL_nil] at hq
      exact Option.noConfusion hq
    have hne2 : ¬ s.data = [] := hne
    simp [pyFloatOr1, parseOr1, hne2, hq]

theorem counterUpdate_valid (v : ℚ) (u : String × List String)
    (hu : ValidCounterUpd u) :
    counterUpdate v u.1 u.2 = .ok (v + counterContrib u) := by
  obtain ⟨hval, hargs⟩ := hu
  rcases hargs with h0 | ⟨a, r, ha, hr⟩
  · have hrate : updRate u.2 = 1 := by rw [h0]; rfl
    rw [h0]
    have h1 : counterUpdate v u.1 [] = (pyFloatOr1 u.1).map (fun x => v + x) := rfl
    rw [h1, pyFloatOr1_eq u.1 hval]
    simp only [Except.map, counterContrib, hrate]
    norm_num
  · have hgd : updRate [a] = (rateOf a).getD 1 := rfl
    have hrate : updRate u.2 = r := by rw [ha, hgd, hr]; rfl
    have hds : ∃ ds, rateMatch a = some ds ∧ pyFloatL ds = some r := by
      unfold rateOf at hr
      cases hrm : rateMatch a with
      | none => rw [hrm] at hr; exact Option.noConfusion hr
      | some ds => rw [hrm] at hr; exact ⟨ds, rfl, hr⟩
    obtain ⟨ds, hrm, hpl⟩ := hds
    rw [ha]
    simp only [counterUpdate, hrm, hpl]
    by_cases hr0 : r = 0
    · simp only [hr0, if_true, counterContrib, hrate]
      norm_num
    · simp only [hr0, if_false, if_neg hr0]
      rw [pyFloatOr1_eq u.1 hval]
      simp only [Except.map, counterContrib, hrate, if_neg hr0]

theorem counterFold_sum (us : List (String × List String)) :
    ∀ v : ℚ, (∀ u ∈ us, ValidCounterUpd u) →
      counterFold v us = .ok (v + (us.map counterContrib).sum) := by
  induction us with
  | nil => intro v _; simp [counterFold]
  | cons u rest ih =>
    intro v hall
    rw [counterFold, counterUpdate_valid v u (hall u (by simp))]
    simp only []
    rw [ih (v + counterContrib u) (fun x hx => hall x (by simp [hx]))]
    simp [add_assoc]

/-! Claim C6. -/

/-- C6: over any sequence of valid Counter updates (value text empty or
parseable, no modifier or one parseable rate modifier), the accumulated
Counter value equals the sum of parse(value, default 1) scaled by the
reciprocal sampling rate over all accepted updates, the rate being 1 when
no modifier is present and a zero-rate update contributing nothing; and an
update whose sampling rate parses to 0 is a no-op rather than an error. -/
theorem C6_counter_sum :
    (∀ us : List (String × List String), (∀ u ∈ us, ValidCounterUpd u) →
        counterFold 0 us = .ok ((us.map counterContrib).sum)) ∧
    (∀ (v : ℚ) (value a : String), rateOf a = some 0 →
        counterUpdate v value [a] = .ok v) := by
  constructor
  · intro us hall
    rw [counterFold_sum us 0 hall, zero_add]
  · intro v value a hr
    have hds : ∃ ds, rateMatch a = some ds ∧ pyFloatL ds = some 0 := by
      unfold rateOf at hr
      cases hrm : rateMatch a with
      | none => rw [hrm] at hr; exact Option.noConfusion hr
      | some ds => rw [hrm] at hr; exact ⟨ds, rfl, hr⟩
    obtain ⟨ds, hrm, hpl⟩ := hds
    simp [counterUpdate, hrm, hpl]

/-- C6 witness: the updates 1 at rate 0.1, 2 unsampled, and 3 at rate 0
accumulate to the contribution sum, which evaluates to 12 (10 + 2 + 0);
a direct zero-rate update is a no-op. -/
theorem C6_witness :
    counterFold 0 [("1", ["@0.1"]), ("2", []), ("3", ["@0"])] =
      .ok (([("1", ["@0.1"]), ("2", []), ("3", ["@0"])].map counterContrib).sum) ∧
    ([("1", ["@0.1"]), ("2", []), ("3", ["@0"])].map counterContrib).sum = 12 ∧
    counterUpdate 7 "4" ["@0"] = .ok 7 := by
  refine ⟨?_, by decide, C6_counter_sum.2 7 "4" "@0" (by decide)⟩
  refine C6_counter_sum.1 _ ?_
  intro u hu
  simp only [List.mem_cons, List.not_mem_nil, or_false] at hu
  rcases hu with rfl | rfl | rfl
  · exact ⟨Or.inr (by decide), Or.inr ⟨"@0.1", 1/10, rfl, by decide⟩⟩
  · exact ⟨Or.inr (by decide), Or.inl rfl⟩
  · exact ⟨Or.inr (by decide), Or.inr ⟨"@0", 0, rfl, by decide⟩⟩

/-! Claim C5. -/

/-- C5 counterexample: the claimed sequence uses the single-segment bucket
foo, whose sanitized key has no dot; variant creation raises ValueError on
the first line, the whole payload aborts, and no Gauge with value 6.0 ever
exists. -/
theorem C5_counterexample :
    processData [] "foo:5|g\nfoo:+3|g\nfoo:-2|g" = ([], some .valueError) := by
  decide

/-- C5 (amended): a Gauge value prefixed with a plus adds its magnitude to
the stored value, a minus prefix subtracts it, and an unprefixed value
replaces the stored value; processing foo.x:5|g, foo.x:+3|g, foo.x:-2|g in
one generation yields a Gauge whose final value is 6.0 (with the
single-segment bucket foo of the original claim, variant creation raises
ValueError instead and no update is applied). -/
theorem C5_gauge_semantics :
    (∀ (v q : ℚ) (rest : List Char), pyFloatL rest = some q →
        gaugeUpdateL v ('+' :: rest) = .ok (v + q) ∧
        gaugeUpdateL v ('-' :: rest) = .ok (v - q)) ∧
    (∀ (v q : ℚ) (l : List Char), pyFloatL l = some q →
        l.head? ≠ some '+' → l.head? ≠ some '-' →
        gaugeUpdateL v l = .ok q) ∧
    processData [] "foo.x:5|g\nfoo.x:+3|g\nfoo.x:-2|g" =
      ([("foo.x", ⟨"foo", "x", .gauge 6⟩)], none) := by
  refine ⟨?_, ?_, by decide⟩
  · intro v q rest h
    constructor <;> simp [gaugeUpdateL, h]
  · intro v q l h hp hm
    unfold gaugeUpdateL
    split
    · simp at hp
    · simp at hm
    · rw [h]

/-- C5 witness: the three relative and absolute Gauge update forms at the
values of the claimed sequence. -/
theorem C5_witness :
    gaugeUpdateL 5 ('+' :: ['3']) = .ok (5 + 3) ∧
    gaugeUpdateL (5 + 3) ('-' :: ['2']) = .ok ((5 + 3) - 2) ∧
    gaugeUpdateL 0 ['5'] = .ok 5 :=
  ⟨(C5_gauge_semantics.1 5 3 ['3'] (by decide)).1,
   (C5_gauge_semantics.1 (5 + 3) 2 ['2'] (by decide)).2,
   C5_gauge_semantics.2.1 0 5 ['5'] (by decide) (by decide) (by decide)⟩

theorem insertSorted_ne_nil (x : ℚ) (l : List ℚ) : insertSorted x l ≠ [] := by
  cases l with
  | nil => simp [insertSorted]
  | cons y r =>
    simp only [insertSorted]
    split <;> simp

theorem pySorted_cons (x : ℚ) (s : List ℚ) :
    pySorted (x :: s) = insertSorted x (pySorted s) := rfl

theorem timerStats_cons (x : ℚ) (s : List ℚ) :
    ∃ st, timerStats (x :: s) = .ok st := by
  cases hsort : pySorted (x :: s) with
  | nil =>
    rw [pySorted_cons] at hsort
    exact absurd hsort (insertSorted_ne_nil x (pySorted s))
  | cons a as =>
    exact ⟨⟨a, (a :: as).getLast (List.cons_ne_nil a as), (a :: as).sum,
      (a :: as).length⟩, by simp [timerStats, hsort]⟩

/-! Claim C7. -/

/-- C7 counterexample: a Gauge that received two updates summing to zero is
skipped at publish although it is not empty in the sense of the claim
(its state was updated in the generation), and a Timer holding zero
elements is not skipped but raises IndexError inside its statistics
property. -/
theorem C7_counterexample :
    processData [] "a.b:5|g\na.b:-5|g" =
      ([("a.b", ⟨"a", "b", .gauge 0⟩)], none) ∧
    pushBox ⟨"a", "b", .gauge 0⟩ = .ok none ∧
    pushBox ⟨"a", "b", .timer []⟩ = .error .indexError :=
  ⟨by decide, by decide, by decide⟩

/-- C7 (amended): a variant is skipped at publish exactly when its scalar
value is falsy — a Counter, Gauge or Meter whose value is 0 (whether it
never received an update or was updated to 0) or a Set with zero elements;
a Timer or Histogram with zero samples is not skipped but raises IndexError
at publish; every variant with a nonzero scalar value or at least one
sample is submitted to the sink. -/
theorem C7_push_skip :
    (∀ b : MetricBox, pushBox b = .ok none ↔ scalarZero b.state = true) ∧
    (∀ b : MetricBox, (∃ e, pushBox b = .error e) ↔ noSamples b.state = true) ∧
    (∀ b : MetricBox, scalarZero b.state = false → noSamples b.state = false →
        ∃ r, pushBox b = .ok (some r)) := by
  refine ⟨fun b => ?_, fun b => ?_, fun b => ?_⟩ <;> obtain ⟨ns, nm, st⟩ := b
  · cases st with
    | counter v => by_cases h : v = 0 <;> simp [pushBox, scalarZero, h]
    | gauge v => by_cases h : v = 0 <;> simp [pushBox, scalarZero, h]
    | meter n => by_cases h : n = 0 <;> simp [pushBox, scalarZero, h]
    | set l => by_cases h : l = [] <;> simp [pushBox, scalarZero, h]
    | timer s =>
      cases s with
      | nil => simp [pushBox, timerStats, scalarZero, pySorted]
      | cons x xs =>
        obtain ⟨st, hst⟩ := timerStats_cons x xs
        simp [pushBox, hst, scalarZero]
    | histogram s =>
      cases s with
      | nil => simp [pushBox, timerStats, scalarZero, pySorted]
      | cons x xs =>
        obtain ⟨st, hst⟩ := timerStats_cons x xs
        simp [pushBox, hst, scalarZero]
  · cases st with
    | counter v => by_cases h : v = 0 <;> simp [pushBox, noSamples, h]
    | gauge v => by_cases h : v = 0 <;> simp [pushBox, noSamples, h]
    | meter n => by_cases h : n = 0 <;> simp [pushBox, noSamples, h]
    | set l => by_cases h : l = [] <;> simp [pushBox, noSamples, h]
    | timer s =>
      cases s with
      | nil => simp [pushBox, timerStats, noSamples, pySorted]
      | cons x xs =>
        obtain ⟨st, hst⟩ := timerStats_cons x xs
        simp [pushBox, hst, noSamples]
    | histogram s =>
      cases s with
      | nil => simp [pushBox, timerStats, noSamples, pySorted]
      | cons x xs =>
        obtain ⟨st, hst⟩ := timerStats_cons x xs
        simp [pushBox, hst, noSamples]
  · intro hz hn
    cases st with
    | counter v =>
      simp only [scalarZero, decide_eq_false_iff_not] at hz
      have hp : pushBox ⟨ns, nm, .counter v⟩ =
          .ok (some ⟨"Statsd/" ++ ns, nm, unitOf .counter, some v, none⟩) := by
        simp [pushBox, hz]
      exact ⟨_, hp⟩
    | gauge v =>
      simp only [scalarZero, decide_eq_false_iff_not] at hz
      have hp : pushBox ⟨ns, nm, .gauge v⟩ =
          .ok (some ⟨"Statsd/" ++ ns, nm, unitOf .gauge, some v, none⟩) := by
        simp [pushBox, hz]
      exact ⟨_, hp⟩
    | meter n =>
      simp only [scalarZero, decide_eq_false_iff_not] at hz
      have hp : pushBox ⟨ns, nm, .meter n⟩ =
          .ok (some ⟨"Statsd/" ++ ns, nm, unitOf .meter, some (n : ℚ), none⟩) := by
        simp [pushBox, hz]
      exact ⟨_, hp⟩
    | set l =>
      have hl : ¬ l = [] := by
        intro h0
        rw [h0] at hz
        simp [scalarZero] at hz
      have hp : pushBox ⟨ns, nm, .set l⟩ =
          .ok (some ⟨"Statsd/" ++ ns, nm, unitOf .set, some (l.length : ℚ), none⟩) := by
        simp [pushBox, hl]
      exact ⟨_, hp⟩
    | timer s =>
      cases s with
      | nil => simp [noSamples] at hn
      | cons x xs =>
        obtain ⟨st, hst⟩ := timerStats_cons x xs
        have hp : pushBox ⟨ns, nm, .timer (x :: xs)⟩ =
            .ok (some ⟨"Statsd/" ++ ns, nm, unitOf .timer, none, some st⟩) := by
          simp [pushBox, hst]
        exact ⟨_, hp⟩
    | histogram s =>
      cases s with
      | nil => simp [noSamples] at hn
      | cons x xs =>
        obtain ⟨st, hst⟩ := timerStats_cons x xs
        have hp : pushBox ⟨ns, nm, .histogram (x :: xs)⟩ =
            .ok (some ⟨"Statsd/" ++ ns, nm, unitOf .histogram, none, some st⟩) := by
          simp [pushBox, hst]
        exact ⟨_, hp⟩

/-- C7 witness: a Gauge with value 5 is submitted, a Counter that stayed at
its default 0 is skipped. -/
theorem C7_witness :
    (∃ r, pushBox ⟨"a", "b", .gauge 5⟩ = .ok (some r)) ∧
    pushBox ⟨"a", "b", .counter 0⟩ = .ok none :=
  ⟨C7_push_skip.2.2 ⟨"a", "b", .gauge 5⟩ (by decide) (by decide),
   (C7_push_skip.1 ⟨"a", "b", .counter 0⟩).mpr (by decide)⟩

/-! Claim C8. -/

/-- C8 counterexample: two type code m lines yield a Histogram holding the
float samples [2, 3] — not an integer running count of 5 — and its publish
record carries a statistics block with no scalar value, not a single
value. -/
theorem C8_counterexample :
    processData [] "a.b:2|m\na.b:3|m" =
      ([("a.b", ⟨"a", "b", .histogram [2, 3]⟩)], none) ∧
    pushBox ⟨"a", "b", .histogram [2, 3]⟩ =
      .ok (some ⟨"Statsd/a", "b", "Milliseconds", none, some ⟨2, 3, 5, 2⟩⟩) :=
  ⟨by decide, by decide⟩

/-- C8 (amended): an update with type code m dispatches the Histogram
class, an alias of Timer: it appends parse(rawValue) as a float to the
sample list (there is no default for a missing value), and at flush the
variant is published as a statistics block, not a single value; the Meter
class and its integer running count are unreachable from every type
code. -/
theorem C8_m_semantics :
    metric_types "m" = some .histogram ∧
    (∀ t : String, metric_types t ≠ some .meter) ∧
    (∀ (s : List ℚ) (value : String) (args : List String) (q : ℚ),
        pyFloat value = some q →
        updateState (.histogram s) value args = .ok (.histogram (s ++ [q]))) ∧
    (∀ (b : MetricBox) (x : ℚ) (s : List ℚ), b.state = .histogram (x :: s) →
        ∃ st, pushBox b =
          .ok (some ⟨"Statsd/" ++ b.nspace, b.mname, "Milliseconds", none, some st⟩)) := by
  refine ⟨rfl, ?_, ?_, ?_⟩
  · intro t h
    unfold metric_types at h
    split_ifs at h <;> simp_all
  · intro s value args q h
    simp [updateState, timerUpdate, h, Except.map]
  · intro b x s hb
    obtain ⟨ns, nm, st0⟩ := b
    simp only at hb
    subst hb
    obtain ⟨st, hst⟩ := timerStats_cons x s
    exact ⟨st, by simp [pushBox, hst, unitOf]⟩

/-- C8 witness: the dispatch of m, an appending update, and a statistics
publish at concrete inputs. -/
theorem C8_witness :
    metric_types "m" = some MKind.histogram ∧
    updateState (.histogram [2]) "3" [] = .ok (.histogram [2, 3]) ∧
    (∃ st, pushBox ⟨"a", "b", .histogram [2, 3]⟩ =
      .ok (some ⟨"Statsd/" ++ "a", "b", "Milliseconds", none, some st⟩)) :=
  ⟨C8_m_semantics.1,
   C8_m_semantics.2.2.1 [2] "3" [] 3 (by decide),
   C8_m_semantics.2.2.2 ⟨"a", "b", .histogram [2, 3]⟩ 2 [3] rfl⟩

theorem breakOnChar_append (bs rest : List Char) (c : Char) (hmem : c ∉ bs) :
    breakOnChar c (bs ++ c :: rest) = some (bs, rest) := by
  induction bs with
  | nil => simp [breakOnChar]
  | cons b bs ih =>
    have hbc : ¬ b = c := fun h => hmem (by simp [h])
    have hm : c ∉ bs := fun h => hmem (by simp [h])
    simp [breakOnChar, hbc, ih hm]

/-! Claim C9. -/

/-- C9 counterexample: the Counter line a.b:|c and the Meter-coded line
a.b:|m, whose values are omitted, are rejected by the line regex (the value
group requires at least one character): no variant is created and nothing
is treated as the value 1. -/
theorem C9_counterexample :
    processData [] "a.b:|c" = ([], none) ∧
    processData [] "a.b:|m" = ([], none) ∧
    lookupReg (processData [] "a.b:|c").1 "a.b" = none :=
  ⟨by decide, by decide, by decide⟩

/-- C9 (amended): a line whose value is omitted fails the line regex — for
any bucket free of colons, the line bucket:|... does not parse and is
skipped as malformed — so the parser never reaches a variant update with an
empty value; the default of 1 exists only in Counter.update and
Meter.update themselves, which do map an empty value string to adding
1 divided by the rate, but that path is unreachable from the parser. -/
theorem C9_empty_value :
    (∀ bs rest : List Char, ':' ∉ bs →
        parseLineL (bs ++ ':' :: '|' :: rest) = none) ∧
    (∀ v : ℚ, counterUpdate v "" [] = .ok (v + 1)) ∧
    (∀ n : ℤ, meterUpdate n "" = .ok (n + 1)) := by
  refine ⟨?_, ?_, ?_⟩
  · intro bs rest hmem
    unfold parseLineL
    rw [breakOnChar_append bs ('|' :: rest) ':' hmem]
    by_cases hb : bs = []
    · simp [hb]
    · simp [hb, breakOnChar]
  · intro v
    simp [counterUpdate, pyFloatOr1, Except.map]
  · intro n
    simp [meterUpdate, pyIntOr1, Except.map]

/-- C9 witness: the one-character bucket a with an omitted value does not
parse, and a direct Counter update with an empty value adds 1. -/
theorem C9_witness :
    parseLineL (['a'] ++ ':' :: '|' :: ['c']) = none ∧
    counterUpdate 5 "" [] = .ok (5 + 1) :=
  ⟨C9_empty_value.1 ['a'] ['c'] (by decide), C9_empty_value.2.1 5⟩

/-! Claim C10. -/

/-- C10: a counter line whose single modifier argument does not match the
at-sign-then-digits-or-dots pattern makes Counter.update raise
AttributeError (None.group on the failed regex match): the freshly created
Counter stays in the registry with value 0, the exception escapes the
payload processor so the remaining lines of the datagram are not processed,
and the ingest loop catches it and continues with that registry. -/
theorem C10_bad_modifier
    (reg : Registry) (data line : String) (rest : List String)
    (bucket value g3 a ns nm : String)
    (hsplit : pySplit '\n' data = line :: rest)
    (hparse : parseLine line = some (bucket, value, g3))
    (hargs : pySplit '|' g3 = ["c", a])
    (hrate : rateMatch a = none)
    (hlook : lookupReg reg (clean_key bucket) = none)
    (hrs : rsplitDot (clean_key bucket) = some (ns, nm)) :
    processData reg data =
      (reg ++ [(clean_key bucket,
        ⟨String.mk (ns.toList.map (fun c => if c = '.' then '/' else c)), nm,
          .counter 0⟩)],
       some .attributeError) ∧
    serveProcessDatagram reg data =
      reg ++ [(clean_key bucket,
        ⟨String.mk (ns.toList.map (fun c => if c = '.' then '/' else c)), nm,
          .counter 0⟩)] := by
  have hmt : metric_types "c" = some .counter := rfl
  have hmain : processData reg data =
      (reg ++ [(clean_key bucket,
        ⟨String.mk (ns.toList.map (fun c => if c = '.' then '/' else c)), nm,
          .counter 0⟩)],
       some .attributeError) := by
    rw [processData, hsplit]
    simp [processLines, processLine, hparse, hargs, handleLine, hmt, hlook,
      mkBox, hrs, updateState, counterUpdate, hrate, initState, Except.map]
  exact ⟨hmain, by rw [serveProcessDatagram, hmain]⟩

/-- C10 witness: the payload with first line foo.bar:1|c|sampled aborts
with AttributeError; the second line is not processed, and the caught
result keeps the fresh Counter at 0. -/
theorem C10_witness :
    processData [] "foo.bar:1|c|sampled\nbaz.q:1|c" =
      ([("foo.bar", ⟨"foo", "bar", .counter 0⟩)], some .attributeError) ∧
    serveProcessDatagram [] "foo.bar:1|c|sampled\nbaz.q:1|c" =
      [("foo.bar", ⟨"foo", "bar", .counter 0⟩)] :=
  C10_bad_modifier [] "foo.bar:1|c|sampled\nbaz.q:1|c" "foo.bar:1|c|sampled"
    ["baz.q:1|c"] "foo.bar" "1" "c|sampled" "sampled" "foo" "bar"
    (by decide) (by decide) (by decide) (by decide) (by decide) (by decide)

end StatsdCW
